import Mathlib

/-
Verification of the dipperin-core receipts/gas validation stage
(core/cs-chain/chain-writer/middleware/insert_receipts.go) and of the
account-state read error contract used by the full-chain service
(MercuryFullChainService.VerifierStatus / CurrentBalance).

The embedding mirrors the Go source.  Types that the middleware consumes
but whose definitions live outside the analysed files (Receipt, the
transaction iterator, the g-error values, the account-state getters) are
modelled from the specification, as documented on each definition.
-/

namespace Dipperin

/-- Modelled from the spec: a Receipt records one transaction's execution
outcome — the cumulative gas used up to and including this transaction,
the emitted logs, and a status (core/vm/model Receipt is not among the
analysed files). -/
structure Receipt where
  cumulativeGasUsed : Nat
  status : Nat
  logs : List Nat
deriving DecidableEq, Repr

/-- A transaction as seen by the receipts/gas stage: the stage only reads
`GetReceipt()`, which yields the attached receipt or nil.  `payload`
stands for the rest of the transaction content, so that two distinct
transactions may carry equal receipts. -/
structure Transaction where
  payload : Nat
  receipt : Option Receipt
deriving DecidableEq, Repr

/-- The header fields the stage reads: `GetGasUsed()` and `GetGasLimit()`
(both uint64 in Go; no arithmetic is performed on them by the stage, only
comparisons, so Nat is a faithful carrier). -/
structure Header where
  gasUsed : Nat
  gasLimit : Nat
deriving DecidableEq, Repr

/-- The block fields the stage reads: `IsSpecial()`, the transaction list
(iterated by `TxIterator` in body order), `GetReceiptHash()` and the
header.  The hash type `H` is a parameter; the stage only compares hashes
for equality. -/
structure Block (H : Type) where
  isSpecial : Bool
  txs : List Transaction
  receiptHash : H
  header : Header
deriving DecidableEq

/-- The shared pipeline context (middleware BlockContext): the candidate
block plus the receipts accumulator field `c.receipts` that this stage
writes on success. -/
structure BlockContext (H : Type) where
  block : Block H
  receipts : List Receipt
deriving DecidableEq

/-- Modelled from the spec: the distinguishable g-error values returned by
the stage (the g-error package is not among the analysed files). -/
inductive GError where
  | errEmptyReceipt
  | receiptHashError
  | errGasUsedIsInvalid
  | errTxGasIsOverRanging
deriving DecidableEq, Repr

/-- The body of `c.Block.TxIterator` in ValidGasUsedAndReceipts: walk the
transactions in body order; a missing receipt aborts the iteration with
ErrEmptyReceipt; otherwise `accumulatedGas` is overwritten with the
receipt's CumulativeGasUsed and the receipt is appended. -/
def txIterLoop : List Transaction → Nat → List Receipt → Except GError (List Receipt × Nat)
  | [], accumulatedGas, receipts => .ok (receipts, accumulatedGas)
  | t :: rest, _, receipts =>
    match t.receipt with
    | none => .error .errEmptyReceipt
    | some r => txIterLoop rest r.cumulativeGasUsed (receipts ++ [r])

/-- ValidGasUsedAndReceipts (insert_receipts.go lines 26-69).  `deriveSha`
is the receipts-root derivation (model.DeriveSha, outside the analysed
files, kept as a parameter); `next` is `c.Next()`, i.e. the remaining
middleware chain acting on the shared context.  A stage error leaves the
context untouched and is returned without invoking `next`. -/
def validGasUsedAndReceipts {H : Type} [DecidableEq H]
    (deriveSha : List Receipt → H)
    (next : BlockContext H → BlockContext H × Option GError)
    (c : BlockContext H) : BlockContext H × Option GError :=
  if c.block.isSpecial then next c
  else
    match txIterLoop c.block.txs 0 [] with
    | .error e => (c, some e)
    | .ok (receipts, accumulatedGas) =>
      if deriveSha receipts ≠ c.block.receiptHash then (c, some .receiptHashError)
      else if accumulatedGas ≠ c.block.header.gasUsed then (c, some .errGasUsedIsInvalid)
      else if accumulatedGas > c.block.header.gasLimit then (c, some .errTxGasIsOverRanging)
      else next { c with receipts := receipts }

/-- The receipt sequence the stage collects: the receipts attached to the
block's transactions, in body order. -/
def collectedReceipts {H : Type} (b : Block H) : List Receipt :=
  b.txs.filterMap Transaction.receipt

/-- The cumulative-gas value of the last receipt of `rs`, or `dflt` when
`rs` is empty (tracking the loop's `accumulatedGas` variable). -/
def lastCumFrom (dflt : Nat) (rs : List Receipt) : Nat :=
  (rs.getLast?).elim dflt Receipt.cumulativeGasUsed

/-- Modelled from the spec: a receipt records only the cumulative gas, so
a transaction's individual gas used is the difference between its
receipt's cumulative counter and the previous one (the first transaction
counts from 0); over the integers these deltas telescope. -/
def individualGasList : Nat → List Receipt → List Int
  | _, [] => []
  | prev, r :: rest =>
    ((r.cumulativeGasUsed : Int) - (prev : Int)) :: individualGasList r.cumulativeGasUsed rest

/-- The sum of the per-transaction individual gas amounts of a receipt
sequence. -/
def sumIndividualGas (rs : List Receipt) : Int :=
  (individualGasList 0 rs).sum

/-- The pure checking outcome of the stage on one non-special block: the
error it aborts with, or the receipt list it stores. -/
def stageOutcome {H : Type} [DecidableEq H]
    (deriveSha : List Receipt → H) (b : Block H) : Except GError (List Receipt) :=
  match txIterLoop b.txs 0 [] with
  | .error e => .error e
  | .ok (receipts, accumulatedGas) =>
    if deriveSha receipts ≠ b.receiptHash then .error .receiptHashError
    else if accumulatedGas ≠ b.header.gasUsed then .error .errGasUsedIsInvalid
    else if accumulatedGas > b.header.gasLimit then .error .errTxGasIsOverRanging
    else .ok receipts

theorem txIterLoop_missing_receipt (txs : List Transaction) (acc : Nat) (rs0 : List Receipt)
    (h : ∃ t ∈ txs, t.receipt = none) :
    txIterLoop txs acc rs0 = .error .errEmptyReceipt := by
  induction txs generalizing acc rs0 with
  | nil => simp at h
  | cons t rest ih =>
    cases hr : t.receipt with
    | none => simp [txIterLoop, hr]
    | some r =>
      rcases h with ⟨u, hu, hnone⟩
      rcases List.mem_cons.mp hu with h1 | h2
      · rw [← h1, hnone] at hr; cases hr
      · simp only [txIterLoop, hr]
        exact ih _ _ ⟨u, h2, hnone⟩

theorem txIterLoop_all_some (txs : List Transaction) (acc : Nat) (rs0 : List Receipt)
    (h : ∀ t ∈ txs, t.receipt.isSome) :
    txIterLoop txs acc rs0 =
      .ok (rs0 ++ txs.filterMap Transaction.receipt,
        lastCumFrom acc (txs.filterMap Transaction.receipt)) := by
  induction txs generalizing acc rs0 with
  | nil => simp [txIterLoop, lastCumFrom]
  | cons t rest ih =>
    have ht : t.receipt.isSome := h t (List.mem_cons_self t rest)
    cases hr : t.receipt with
    | none => rw [hr] at ht; cases ht
    | some r =>
      have hrest : ∀ u ∈ rest, u.receipt.isSome :=
        fun u hu => h u (List.mem_cons_of_mem _ hu)
      simp only [txIterLoop, hr]
      rw [ih r.cumulativeGasUsed (rs0 ++ [r]) hrest]
      simp only [List.filterMap_cons, hr, List.append_assoc, List.singleton_append]
      refine congrArg Except.ok (Prod.ext rfl ?_)
      cases hfm : rest.filterMap Transaction.receipt with
      | nil => simp [lastCumFrom]
      | cons x xs =>
        simp only [lastCumFrom, List.getLast?_cons_cons]
        cases hy : (x :: xs).getLast? with
        | none => exact absurd (List.getLast?_eq_none_iff.mp hy) (by simp)
        | some y => rfl

theorem individualGasList_sum (rs : List Receipt) (prev : Nat) :
    (individualGasList prev rs).sum = (lastCumFrom prev rs : Int) - (prev : Int) := by
  induction rs generalizing prev with
  | nil => simp [individualGasList, lastCumFrom]
  | cons r rest ih =>
    simp only [individualGasList, List.sum_cons, ih r.cumulativeGasUsed]
    have hlast : lastCumFrom prev (r :: rest) = lastCumFrom r.cumulativeGasUsed rest := by
      cases rest with
      | nil => simp [lastCumFrom]
      | cons x xs =>
        simp only [lastCumFrom, List.getLast?_cons_cons]
        cases hy : (x :: xs).getLast? with
        | none => exact absurd (List.getLast?_eq_none_iff.mp hy) (by simp)
        | some y => rfl
    rw [hlast]
    ring

theorem validGas_special {H : Type} [DecidableEq H]
    (deriveSha : List Receipt → H) (next : BlockContext H → BlockContext H × Option GError)
    (c : BlockContext H) (h : c.block.isSpecial = true) :
    validGasUsedAndReceipts deriveSha next c = next c := by
  simp [validGasUsedAndReceipts, h]

theorem validGas_iter_error {H : Type} [DecidableEq H]
    (deriveSha : List Receipt → H) (next : BlockContext H → BlockContext H × Option GError)
    (c : BlockContext H) (hns : c.block.isSpecial = false)
    (e : GError) (h : txIterLoop c.block.txs 0 [] = .error e) :
    validGasUsedAndReceipts deriveSha next c = (c, some e) := by
  simp [validGasUsedAndReceipts, hns, h]

theorem validGas_iter_ok {H : Type} [DecidableEq H]
    (deriveSha : List Receipt → H) (next : BlockContext H → BlockContext H × Option GError)
    (c : BlockContext H) (hns : c.block.isSpecial = false)
    (rs : List Receipt) (gas : Nat) (h : txIterLoop c.block.txs 0 [] = .ok (rs, gas)) :
    validGasUsedAndReceipts deriveSha next c =
      (if deriveSha rs ≠ c.block.receiptHash then (c, some .receiptHashError)
       else if gas ≠ c.block.header.gasUsed then (c, some .errGasUsedIsInvalid)
       else if gas > c.block.header.gasLimit then (c, some .errTxGasIsOverRanging)
       else next { c with receipts := rs }) := by
  simp only [validGasUsedAndReceipts, hns, Bool.false_eq_true, if_false, h]

/-- Claim C1: on every block the stage actually iterates (all transactions
carry receipts), the loop's final accumulatedGas is exactly the last
receipt's CumulativeGasUsed (0 when there are no transactions), and it
equals the sum of the per-transaction individual gas amounts — the stage
computes it by overwriting accumulatedGas with each receipt's cumulative
counter in turn. -/
theorem gas_accumulation_invariant (txs : List Transaction)
    (h : ∀ t ∈ txs, t.receipt.isSome) :
    ∃ rs gas, txIterLoop txs 0 [] = .ok (rs, gas) ∧
      sumIndividualGas rs = (gas : Int) ∧
      gas = lastCumFrom 0 rs ∧
      (∀ last, rs.getLast? = some last → gas = last.cumulativeGasUsed) := by
  refine ⟨txs.filterMap Transaction.receipt, lastCumFrom 0 (txs.filterMap Transaction.receipt),
    ?_, ?_, rfl, ?_⟩
  · simpa using txIterLoop_all_some txs 0 [] h
  · rw [sumIndividualGas, individualGasList_sum]
    simp
  · intro last hlast
    simp [lastCumFrom, hlast]

theorem gas_accumulation_invariant_witness :
    (∀ t ∈ [Transaction.mk 0 (some ⟨3, 1, []⟩), Transaction.mk 1 (some ⟨5, 1, []⟩)],
      t.receipt.isSome) ∧
    ∃ rs gas,
      txIterLoop [Transaction.mk 0 (some ⟨3, 1, []⟩), Transaction.mk 1 (some ⟨5, 1, []⟩)] 0 []
        = .ok (rs, gas) ∧
      sumIndividualGas rs = (gas : Int) ∧
      gas = lastCumFrom 0 rs ∧
      (∀ last, rs.getLast? = some last → gas = last.cumulativeGasUsed) :=
  ⟨by decide, gas_accumulation_invariant _ (by decide)⟩

theorem validGas_run {H : Type} [DecidableEq H]
    (deriveSha : List Receipt → H) (c : BlockContext H)
    (hns : c.block.isSpecial = false)
    (next : BlockContext H → BlockContext H × Option GError) :
    validGasUsedAndReceipts deriveSha next c =
      match stageOutcome deriveSha c.block with
      | .error e => (c, some e)
      | .ok rs => next { c with receipts := rs } := by
  cases hiter : txIterLoop c.block.txs 0 [] with
  | error e0 =>
    rw [validGas_iter_error deriveSha next c hns e0 hiter]
    simp only [stageOutcome, hiter]
  | ok p =>
    obtain ⟨rs0, gas⟩ := p
    rw [validGas_iter_ok deriveSha next c hns rs0 gas hiter]
    simp only [stageOutcome, hiter]
    split_ifs <;> rfl

theorem validGas_hash_mismatch {H : Type} [DecidableEq H]
    (deriveSha : List Receipt → H) (c : BlockContext H)
    (hns : c.block.isSpecial = false)
    (hall : ∀ t ∈ c.block.txs, t.receipt.isSome)
    (hmis : deriveSha (collectedReceipts c.block) ≠ c.block.receiptHash)
    (next : BlockContext H → BlockContext H × Option GError) :
    validGasUsedAndReceipts deriveSha next c = (c, some .receiptHashError) := by
  rw [validGas_iter_ok deriveSha next c hns _ _
    (by simpa using txIterLoop_all_some c.block.txs 0 [] hall)]
  rw [if_pos (by simpa [collectedReceipts] using hmis)]

/-- Claim C2: on a non-special block the stage is fully characterised by
its pure checking outcome — when any check fails it returns that error
with the shared context untouched (in particular `c.receipts` unchanged)
and the expression does not involve `next`, so no later stage executes;
only when every check passes does it store the recomputed receipt list
into the context and invoke the next stage. -/
theorem stage_stores_receipts_only_on_success {H : Type} [DecidableEq H]
    (deriveSha : List Receipt → H) (c : BlockContext H)
    (hns : c.block.isSpecial = false) :
    ∀ next, validGasUsedAndReceipts deriveSha next c =
      match stageOutcome deriveSha c.block with
      | .error e => (c, some e)
      | .ok rs => next { c with receipts := rs } :=
  fun next => validGas_run deriveSha c hns next

theorem stage_stores_receipts_only_on_success_witness :
    let c : BlockContext (List Receipt) :=
      ⟨⟨false, [⟨0, some ⟨3, 1, []⟩⟩], [⟨9, 9, []⟩], ⟨3, 100⟩⟩, []⟩
    validGasUsedAndReceipts (fun rs => rs) (fun x => (x, none)) c =
      match stageOutcome (fun rs => rs) c.block with
      | .error e => (c, some e)
      | .ok rs => (fun x => (x, none)) { c with receipts := rs } :=
  stage_stores_receipts_only_on_success (fun rs => rs) _ (by decide) (fun x => (x, none))

/-- Claim C3: on a non-special block where some transaction carries no
receipt, the stage aborts with ErrEmptyReceipt; the result is the same
for every receipts-root derivation and every continuation, so the abort
happens before any receipts-root or gas comparison can run — even on
blocks whose hash and gas claims are also wrong, the error is
ErrEmptyReceipt. -/
theorem empty_receipt_aborts_first {H : Type} [DecidableEq H]
    (c : BlockContext H) (hns : c.block.isSpecial = false)
    (h : ∃ t ∈ c.block.txs, t.receipt = none) :
    ∀ (deriveSha : List Receipt → H) next,
      validGasUsedAndReceipts deriveSha next c = (c, some .errEmptyReceipt) :=
  fun deriveSha next =>
    validGas_iter_error deriveSha next c hns _ (txIterLoop_missing_receipt _ _ _ h)

theorem empty_receipt_aborts_first_witness :
    let c : BlockContext (List Receipt) :=
      ⟨⟨false, [⟨0, some ⟨3, 1, []⟩⟩, ⟨1, none⟩], [], ⟨999, 0⟩⟩, []⟩
    validGasUsedAndReceipts (fun rs => rs) (fun x => (x, none)) c =
      (c, some .errEmptyReceipt) :=
  empty_receipt_aborts_first _ (by decide) (by decide) (fun rs => rs) (fun x => (x, none))

/-- Claim C4: on a non-special block whose transactions all carry
receipts, when the derived root of the collected receipt sequence differs
from the block's declared receipt hash the stage aborts with
ReceiptHashError; the hypotheses place no constraint on the header's
gas-used or gas-limit fields, so the comparison takes precedence over
both gas checks. -/
theorem receipt_hash_mismatch_aborts {H : Type} [DecidableEq H]
    (deriveSha : List Receipt → H) (c : BlockContext H)
    (hns : c.block.isSpecial = false)
    (hall : ∀ t ∈ c.block.txs, t.receipt.isSome)
    (hmis : deriveSha (collectedReceipts c.block) ≠ c.block.receiptHash) :
    ∀ next, validGasUsedAndReceipts deriveSha next c = (c, some .receiptHashError) :=
  fun next => validGas_hash_mismatch deriveSha c hns hall hmis next

theorem receipt_hash_mismatch_aborts_witness :
    let c : BlockContext (List Receipt) :=
      ⟨⟨false, [⟨0, some ⟨3, 1, []⟩⟩], [⟨9, 9, []⟩], ⟨999, 0⟩⟩, []⟩
    validGasUsedAndReceipts (fun rs => rs) (fun x => (x, none)) c =
      (c, some .receiptHashError) :=
  receipt_hash_mismatch_aborts (fun rs => rs) _ (by decide) (by decide) (by decide)
    (fun x => (x, none))

/-- Claim C5: on a non-special block whose transactions all carry
receipts and whose declared receipt hash matches the derived root, if the
final accumulatedGas (the last receipt's cumulative counter) differs from
the header's declared gas-used field the stage aborts with
ErrGasUsedIsInvalid. -/
theorem gas_used_invalid_aborts {H : Type} [DecidableEq H]
    (deriveSha : List Receipt → H) (c : BlockContext H)
    (hns : c.block.isSpecial = false)
    (hall : ∀ t ∈ c.block.txs, t.receipt.isSome)
    (hhash : deriveSha (collectedReceipts c.block) = c.block.receiptHash)
    (hgas : lastCumFrom 0 (collectedReceipts c.block) ≠ c.block.header.gasUsed) :
    ∀ next, validGasUsedAndReceipts deriveSha next c = (c, some .errGasUsedIsInvalid) := by
  intro next
  rw [validGas_iter_ok deriveSha next c hns _ _
    (by simpa using txIterLoop_all_some c.block.txs 0 [] hall)]
  rw [if_neg (by simpa [collectedReceipts] using hhash)]
  rw [if_pos (by simpa [collectedReceipts] using hgas)]

theorem gas_used_invalid_aborts_witness :
    let c : BlockContext (List Receipt) :=
      ⟨⟨false, [⟨0, some ⟨3, 1, []⟩⟩], [⟨3, 1, []⟩], ⟨999, 0⟩⟩, []⟩
    validGasUsedAndReceipts (fun rs => rs) (fun x => (x, none)) c =
      (c, some .errGasUsedIsInvalid) :=
  gas_used_invalid_aborts (fun rs => rs) _ (by decide) (by decide) (by decide) (by decide)
    (fun x => (x, none))

/-- Claim C6: on a non-special block that passes the receipts-root check
and the gas-used check, the stage aborts with ErrTxGasIsOverRanging
exactly when the accumulated gas (equal to the declared gas-used)
exceeds the header's gas limit; otherwise all checks succeed and the
stage stores the receipts and continues. -/
theorem gas_over_limit_check {H : Type} [DecidableEq H]
    (deriveSha : List Receipt → H) (c : BlockContext H)
    (hns : c.block.isSpecial = false)
    (hall : ∀ t ∈ c.block.txs, t.receipt.isSome)
    (hhash : deriveSha (collectedReceipts c.block) = c.block.receiptHash)
    (hused : lastCumFrom 0 (collectedReceipts c.block) = c.block.header.gasUsed) :
    (c.block.header.gasUsed > c.block.header.gasLimit →
      ∀ next, validGasUsedAndReceipts deriveSha next c = (c, some .errTxGasIsOverRanging)) ∧
    (¬ c.block.header.gasUsed > c.block.header.gasLimit →
      ∀ next, validGasUsedAndReceipts deriveSha next c =
        next { c with receipts := collectedReceipts c.block }) := by
  constructor <;> intro hlim next <;>
    rw [validGas_iter_ok deriveSha next c hns _ _
        (by simpa using txIterLoop_all_some c.block.txs 0 [] hall),
      if_neg (by simpa [collectedReceipts] using hhash),
      if_neg (by simpa [collectedReceipts] using hused)]
  · rw [if_pos (by
      rw [show List.filterMap Transaction.receipt c.block.txs = collectedReceipts c.block
        from rfl, hused]
      exact hlim)]
  · rw [if_neg (by
      rw [show List.filterMap Transaction.receipt c.block.txs = collectedReceipts c.block
        from rfl, hused]
      exact hlim)]
    simp [collectedReceipts]

theorem gas_over_limit_check_witness :
    let c : BlockContext (List Receipt) :=
      ⟨⟨false, [⟨0, some ⟨50, 1, []⟩⟩], [⟨50, 1, []⟩], ⟨50, 10⟩⟩, []⟩
    validGasUsedAndReceipts (fun rs => rs) (fun x => (x, none)) c =
      (c, some .errTxGasIsOverRanging) :=
  (gas_over_limit_check (fun rs => rs) _ (by decide) (by decide) (by decide)
    (by decide)).1 (by decide) (fun x => (x, none))

/-- Claim C8: on a designated special block the stage performs no
per-transaction check at all and passes straight through to the next
stage — its result is exactly the next stage's result on the untouched
context, whatever the transactions, receipt hash or gas fields are. -/
theorem special_block_passthrough {H : Type} [DecidableEq H]
    (deriveSha : List Receipt → H)
    (next : BlockContext H → BlockContext H × Option GError)
    (c : BlockContext H) (h : c.block.isSpecial = true) :
    validGasUsedAndReceipts deriveSha next c = next c :=
  validGas_special deriveSha next c h

theorem special_block_passthrough_witness :
    let c : BlockContext (List Receipt) :=
      ⟨⟨true, [⟨0, none⟩], [⟨9, 9, []⟩], ⟨999, 0⟩⟩, []⟩
    validGasUsedAndReceipts (fun rs => rs) (fun x => (x, none)) c =
      (fun x => (x, none)) c :=
  special_block_passthrough (fun rs => rs) (fun x => (x, none)) _ (by decide)

/-- Claim C10: on a non-special block with no transactions the loop
collects no receipts and leaves accumulatedGas at 0, so the stage
succeeds (storing the empty receipt list) exactly when the declared
receipt hash equals the derived root of the empty sequence and the
declared gas-used is 0; a mismatching hash aborts with ReceiptHashError,
a non-zero declared gas-used aborts with ErrGasUsedIsInvalid, and the
gas-limit check (0 > limit) can never fail. -/
theorem empty_block_stage_characterization {H : Type} [DecidableEq H]
    (deriveSha : List Receipt → H)
    (next : BlockContext H → BlockContext H × Option GError)
    (c : BlockContext H)
    (hns : c.block.isSpecial = false) (hempty : c.block.txs = []) :
    (deriveSha [] = c.block.receiptHash ∧ c.block.header.gasUsed = 0 →
      validGasUsedAndReceipts deriveSha next c = next { c with receipts := [] }) ∧
    (deriveSha [] ≠ c.block.receiptHash →
      validGasUsedAndReceipts deriveSha next c = (c, some .receiptHashError)) ∧
    (deriveSha [] = c.block.receiptHash ∧ c.block.header.gasUsed ≠ 0 →
      validGasUsedAndReceipts deriveSha next c = (c, some .errGasUsedIsInvalid)) := by
  have hiter : txIterLoop c.block.txs 0 [] = .ok ([], 0) := by
    rw [hempty]; rfl
  have hrun := validGas_iter_ok deriveSha next c hns [] 0 hiter
  refine ⟨?_, ?_, ?_⟩
  · rintro ⟨h1, h2⟩
    rw [hrun, if_neg (by simp [h1]), if_neg (by simp [h2]), if_neg (by simp)]
  · intro h1
    rw [hrun, if_pos h1]
  · rintro ⟨h1, h2⟩
    rw [hrun, if_neg (by simp [h1]), if_pos (by simpa using Ne.symm h2)]

theorem empty_block_stage_characterization_witness :
    let c : BlockContext (List Receipt) := ⟨⟨false, [], [], ⟨0, 77⟩⟩, []⟩
    validGasUsedAndReceipts (fun rs => rs) (fun x => (x, none)) c =
      (fun x => (x, none)) { c with receipts := [] } :=
  (empty_block_stage_characterization (fun rs => rs) (fun x => (x, none)) _
    (by decide) (by decide)).1 (by decide)

/-- Claim C7 counterexample: a genuine reordering of the block's
transactions is NOT always rejected.  Two distinct transactions that
carry equal receipts can be swapped: the swapped transaction list differs
from the original and is a permutation of it, yet the stage accepts both
blocks against the same declared receipt hash and gas fields, because it
only inspects the receipt sequence, which the swap leaves unchanged. -/
theorem reordering_with_equal_receipts_accepted :
    ([⟨1, some ⟨5, 1, []⟩⟩, ⟨0, some ⟨5, 1, []⟩⟩] : List Transaction) ≠
      [⟨0, some ⟨5, 1, []⟩⟩, ⟨1, some ⟨5, 1, []⟩⟩] ∧
    List.Perm ([⟨1, some ⟨5, 1, []⟩⟩, ⟨0, some ⟨5, 1, []⟩⟩] : List Transaction)
      [⟨0, some ⟨5, 1, []⟩⟩, ⟨1, some ⟨5, 1, []⟩⟩] ∧
    (validGasUsedAndReceipts (fun rs => rs) (fun x => (x, none))
      ⟨⟨false, [⟨0, some ⟨5, 1, []⟩⟩, ⟨1, some ⟨5, 1, []⟩⟩],
        [⟨5, 1, []⟩, ⟨5, 1, []⟩], ⟨5, 100⟩⟩, []⟩).2 = none ∧
    (validGasUsedAndReceipts (fun rs => rs) (fun x => (x, none))
      ⟨⟨false, [⟨1, some ⟨5, 1, []⟩⟩, ⟨0, some ⟨5, 1, []⟩⟩],
        [⟨5, 1, []⟩, ⟨5, 1, []⟩], ⟨5, 100⟩⟩, []⟩).2 = none := by
  refine ⟨by decide, List.Perm.swap _ _ _, rfl, rfl⟩

/-- Claim C7 (amended): the stage visits transactions in exactly the
order stored in the block body — the collected receipt list is the
body-order sequence of attached receipts — and, provided the derived
root is collision-free, any reordering of the transactions that changes
the collected receipt sequence is rejected with ReceiptHashError when
the original block passes the receipts-root check, because the root
recomputation is order-dependent.  (A reordering that leaves the receipt
sequence unchanged is accepted, as the counterexample shows.) -/
theorem tx_order_authoritative {H : Type} [DecidableEq H]
    (deriveSha : List Receipt → H) (hinj : Function.Injective deriveSha)
    (c c' : BlockContext H)
    (hns' : c'.block.isSpecial = false)
    (hall : ∀ t ∈ c.block.txs, t.receipt.isSome)
    (hperm : c'.block.txs.Perm c.block.txs)
    (hhdr : c'.block.receiptHash = c.block.receiptHash)
    (hpass : deriveSha (collectedReceipts c.block) = c.block.receiptHash)
    (hdiff : collectedReceipts c'.block ≠ collectedReceipts c.block) :
    (∀ next, validGasUsedAndReceipts deriveSha next c' = (c', some .receiptHashError)) ∧
    (∀ rs gas, txIterLoop c.block.txs 0 [] = .ok (rs, gas) →
      rs = collectedReceipts c.block) := by
  constructor
  · intro next
    have hall' : ∀ t ∈ c'.block.txs, t.receipt.isSome :=
      fun t ht => hall t (hperm.mem_iff.mp ht)
    have hmis : deriveSha (collectedReceipts c'.block) ≠ c'.block.receiptHash := by
      intro heq
      rw [hhdr, ← hpass] at heq
      exact hdiff (hinj heq)
    exact validGas_hash_mismatch deriveSha c' hns' hall' hmis next
  · intro rs gas hok
    rw [txIterLoop_all_some c.block.txs 0 [] hall] at hok
    injection hok with h
    injection h with h1 _
    rw [← h1]
    simp [collectedReceipts]

theorem tx_order_authoritative_witness :
    validGasUsedAndReceipts (fun rs => rs) (fun x => (x, none))
      ⟨⟨false, [⟨1, some ⟨5, 1, []⟩⟩, ⟨0, some ⟨3, 1, []⟩⟩],
        [⟨3, 1, []⟩, ⟨5, 1, []⟩], ⟨5, 100⟩⟩, []⟩ =
      (⟨⟨false, [⟨1, some ⟨5, 1, []⟩⟩, ⟨0, some ⟨3, 1, []⟩⟩],
        [⟨3, 1, []⟩, ⟨5, 1, []⟩], ⟨5, 100⟩⟩, []⟩, some .receiptHashError) :=
  (tx_order_authoritative (fun rs => rs) (fun _ _ h => h)
    ⟨⟨false, [⟨0, some ⟨3, 1, []⟩⟩, ⟨1, some ⟨5, 1, []⟩⟩],
      [⟨3, 1, []⟩, ⟨5, 1, []⟩], ⟨5, 100⟩⟩, []⟩
    ⟨⟨false, [⟨1, some ⟨5, 1, []⟩⟩, ⟨0, some ⟨3, 1, []⟩⟩],
      [⟨3, 1, []⟩, ⟨5, 1, []⟩], ⟨5, 100⟩⟩, []⟩
    (by decide) (by decide) (List.Perm.swap _ _ _) rfl (by decide) (by decide)).1
    (fun x => (x, none))

/- Account State Database read contract and its callers
(MercuryFullChainService.CurrentBalance and VerifierStatus). -/

abbrev Address := Nat

/-- One account record of the Account State Database (the fields read by
the getters under scrutiny). -/
structure Account where
  balance : Int
  nonce : Nat
  stake : Int
  performance : Nat
  lastElect : Nat
deriving DecidableEq, Repr

/-- Modelled from the spec: the Account State Database's mapping from
address to account (state_processor.AccountStateDB is not among the
analysed files); an address absent from the list was never created. -/
def AccountStateDB : Type := List (Address × Account)

def lookupAccount (s : AccountStateDB) (addr : Address) : Option Account :=
  (List.find? (fun p => p.1 == addr) s).map Prod.snd

/-- The literal error text the getters return and the callers match on. -/
def accountDoesNotExist : String := "account does not exist"

/-- Modelled from the spec: GetBalance returns the balance or the typed
"account does not exist" error, never a silent zero. -/
def getBalance (s : AccountStateDB) (addr : Address) : Except String Int :=
  match lookupAccount s addr with
  | none => .error accountDoesNotExist
  | some a => .ok a.balance

/-- Modelled from the spec: GetNonce, same error contract. -/
def getNonce (s : AccountStateDB) (addr : Address) : Except String Nat :=
  match lookupAccount s addr with
  | none => .error accountDoesNotExist
  | some a => .ok a.nonce

/-- Modelled from the spec: GetStake, same error contract. -/
def getStake (s : AccountStateDB) (addr : Address) : Except String Int :=
  match lookupAccount s addr with
  | none => .error accountDoesNotExist
  | some a => .ok a.stake

/-- Modelled from the spec: GetPerformance, same error contract. -/
def getPerformance (s : AccountStateDB) (addr : Address) : Except String Nat :=
  match lookupAccount s addr with
  | none => .error accountDoesNotExist
  | some a => .ok a.performance

/-- Modelled from the spec: GetLastElect, same error contract. -/
def getLastElect (s : AccountStateDB) (addr : Address) : Except String Nat :=
  match lookupAccount s addr with
  | none => .error accountDoesNotExist
  | some a => .ok a.lastElect

/-- MercuryFullChainService.CurrentBalance: on any getter error the
service logs and returns nil (here `none`), otherwise the balance. -/
def currentBalance (s : AccountStateDB) (addr : Address) : Option Int :=
  match getBalance s addr with
  | .error _ => none
  | .ok b => some b

/-- The VerifierStatus return record: verifier state string, stake,
balance, reputation, current-verifier flag and the final error. -/
structure VerifierStatusResult where
  verifierState : String
  stake : Int
  balance : Int
  reputation : Nat
  isCurrentVerifier : Bool
  err : Option String
deriving DecidableEq, Repr

/-- VerifierStatus, final step: classify the verifier state from
lastElect and stake, then take the reputation from CurrentReputation's
outcome, clearing its error when the text matches one of the two
tolerated strings. -/
def verifierStatusClassify (stk bal : Int) (lastElect : Nat) (isCurVer : Bool)
    (reputationResult : Except String Nat) : VerifierStatusResult :=
  let st :=
    if lastElect == 0 && stk == 0 then "Not Registered"
    else if lastElect == 0 && stk != 0 then "Registered"
    else if lastElect != 0 && stk != 0 then "Canceled"
    else "Unstaked"
  match reputationResult with
  | .ok rep => ⟨st, stk, bal, rep, isCurVer, none⟩
  | .error e =>
    if e == accountDoesNotExist || e == "stake not sufficient" then
      ⟨st, stk, bal, 0, isCurVer, none⟩
    else ⟨st, stk, bal, 0, isCurVer, some e⟩

/-- VerifierStatus, after the stake and balance reads: read lastElect,
returning early unless the error text is "account does not exist". -/
def verifierStatusAfterBalance (s : AccountStateDB) (addr : Address) (stk bal : Int)
    (isCurVer : Bool) (reputationResult : Except String Nat) : VerifierStatusResult :=
  match getLastElect s addr with
  | .error e =>
    if e != accountDoesNotExist then ⟨"Not Registered", stk, bal, 0, false, some e⟩
    else verifierStatusClassify stk bal 0 isCurVer reputationResult
  | .ok le => verifierStatusClassify stk bal le isCurVer reputationResult

/-- VerifierStatus, after the stake read: read the balance, returning
early unless the error text is "account does not exist". -/
def verifierStatusAfterStake (s : AccountStateDB) (addr : Address) (stk : Int)
    (isCurVer : Bool) (reputationResult : Except String Nat) : VerifierStatusResult :=
  match getBalance s addr with
  | .error e =>
    if e != accountDoesNotExist then ⟨"Not Registered", stk, 0, 0, false, some e⟩
    else verifierStatusAfterBalance s addr stk 0 isCurVer reputationResult
  | .ok bal => verifierStatusAfterBalance s addr stk bal isCurVer reputationResult

/-- MercuryFullChainService.VerifierStatus: reads stake, balance and
lastElect, tolerating exactly the literal error texts
"account does not exist" (and, for the stake, "stake not sufficient") by
falling through with the zero value, and returning early on any other
error text.  `isCurVer` stands for the chain verifier-list test and
`reputationResult` for CurrentReputation's outcome, both external to the
reads under scrutiny. -/
def verifierStatus (s : AccountStateDB) (addr : Address) (isCurVer : Bool)
    (reputationResult : Except String Nat) : VerifierStatusResult :=
  match getStake s addr with
  | .error e =>
    if e != accountDoesNotExist && e != "stake not sufficient" then
      ⟨"Not Registered", 0, 0, 0, false, some e⟩
    else verifierStatusAfterStake s addr 0 isCurVer reputationResult
  | .ok stk => verifierStatusAfterStake s addr stk isCurVer reputationResult

/-- Claim C9: reading any account field of an address that was never
created returns the typed "account does not exist" error rather than a
silent zero value, and the calling code distinguishes exactly this
condition by matching the literal error text: VerifierStatus carries on
and reports "Not Registered" with no error, and CurrentBalance maps the
error to nil instead of a default balance. -/
theorem account_not_exist_error (s : AccountStateDB) (addr : Address)
    (h : lookupAccount s addr = none) :
    getBalance s addr = .error accountDoesNotExist ∧
    getNonce s addr = .error accountDoesNotExist ∧
    getStake s addr = .error accountDoesNotExist ∧
    getPerformance s addr = .error accountDoesNotExist ∧
    getLastElect s addr = .error accountDoesNotExist ∧
    verifierStatus s addr false (.error accountDoesNotExist) =
      ⟨"Not Registered", 0, 0, 0, false, none⟩ ∧
    currentBalance s addr = none := by
  refine ⟨?_, ?_, ?_, ?_, ?_, ?_, ?_⟩ <;>
    simp [getBalance, getNonce, getStake, getPerformance, getLastElect, currentBalance,
      verifierStatus, verifierStatusAfterStake, verifierStatusAfterBalance,
      verifierStatusClassify, h]

theorem account_not_exist_error_witness :
    lookupAccount ([(3, ⟨77, 0, 0, 0, 0⟩)] : AccountStateDB) 7 = none ∧
    (getBalance ([(3, ⟨77, 0, 0, 0, 0⟩)] : AccountStateDB) 7 = .error accountDoesNotExist ∧
     getNonce ([(3, ⟨77, 0, 0, 0, 0⟩)] : AccountStateDB) 7 = .error accountDoesNotExist ∧
     getStake ([(3, ⟨77, 0, 0, 0, 0⟩)] : AccountStateDB) 7 = .error accountDoesNotExist ∧
     getPerformance ([(3, ⟨77, 0, 0, 0, 0⟩)] : AccountStateDB) 7 = .error accountDoesNotExist ∧
     getLastElect ([(3, ⟨77, 0, 0, 0, 0⟩)] : AccountStateDB) 7 = .error accountDoesNotExist ∧
     verifierStatus ([(3, ⟨77, 0, 0, 0, 0⟩)] : AccountStateDB) 7 false
        (.error accountDoesNotExist) = ⟨"Not Registered", 0, 0, 0, false, none⟩ ∧
     currentBalance ([(3, ⟨77, 0, 0, 0, 0⟩)] : AccountStateDB) 7 = none) :=
  ⟨by decide, account_not_exist_error _ 7 (by decide)⟩

end Dipperin
